import Mathlib

/-!
Verification development for the GainSpend repository (two revisions of a
personal finance Telegram bot: `src/GainSpend.py`, the 7-state revision, and
`src/bot.py`, the 6-state revision with single-line entry and detailed
statistics).

Strings are modelled as `List Char`.  Python `float` values produced by
`float(...)` on user input are modelled exactly as decimal values
`mantissa / 10 ^ scale`, plus the special values `inf`, `-inf` and `nan`
(which Python's `float` parser accepts); binary floating-point rounding is
not modelled.  Database `NUMERIC` amounts and SQL sums are modelled as `ℚ`.
-/

abbrev Str := List Char

/-- Whitespace characters stripped by Python `str.strip()` (ASCII subset). -/
def wsChar (c : Char) : Bool :=
  decide (c ∈ [' ', '\t', '\n', '\r', '\x0b', '\x0c'])

/-- Python `str.strip()`: drop leading and trailing whitespace. -/
def pyStrip (l : Str) : Str :=
  (((l.dropWhile wsChar).reverse.dropWhile wsChar)).reverse

/-- Python `str.lower()` on a single character: ASCII letters and the
Cyrillic range `А`-`Я` (U+0410..U+042F, shifted by 32) plus `Ё`;
all other characters are unchanged. -/
def pyLowerChar (c : Char) : Char :=
  if 'A' ≤ c ∧ c ≤ 'Z' then Char.ofNat (c.toNat + 32)
  else if 'А' ≤ c ∧ c ≤ 'Я' then Char.ofNat (c.toNat + 32)
  else if c = 'Ё' then 'ё'
  else c

/-- Python `str.lower()`. -/
def pyLower (l : Str) : Str := l.map pyLowerChar

/-- Python `str.replace(old, new)` for single-character arguments. -/
def pyReplace (old new : Char) (l : Str) : Str :=
  l.map (fun c => if c = old then new else c)

/-- Python `line.split(sep, 1)` for a single-character separator that is
known to occur: the part before the first occurrence and the part after. -/
def splitFirst (c : Char) : Str → Str × Str
  | [] => ([], [])
  | x :: xs =>
      if x = c then ([], xs)
      else
        let p := splitFirst c xs
        (x :: p.1, p.2)

/-- Python `text.split(sep)` for a single-character separator. -/
def splitOnChar (c : Char) : Str → List Str
  | [] => [[]]
  | x :: xs =>
      if x = c then [] :: splitOnChar c xs
      else
        match splitOnChar c xs with
        | h :: t => (x :: h) :: t
        | [] => [[x]]

def isDigitB (c : Char) : Bool := decide ('0' ≤ c ∧ c ≤ '9')

/-- Numeric value of a digit string (most significant digit first). -/
def digitsVal (l : Str) : ℕ :=
  l.foldl (fun a c => 10 * a + (c.toNat - 48)) 0

/-- Decimal rendering of a natural number. -/
def natDigits (n : ℕ) : Str := Nat.toDigits 10 n

/-- A Python `float` value, modelled exactly: `finite m k` stands for the
decimal value `m / 10 ^ k`; `inf`, `neginf` and `nan` are the IEEE special
values, whose string forms Python's `float` constructor accepts.  Binary
rounding of decimal literals is not modelled. -/
inductive PyFloat where
  | finite (m : ℤ) (k : ℕ)
  | inf
  | neginf
  | nan
deriving DecidableEq

/-- Python `<=` on floats: every comparison with `nan` is false. -/
def pyLe : PyFloat → PyFloat → Bool
  | .nan, _ => false
  | _, .nan => false
  | .neginf, _ => true
  | _, .inf => true
  | .inf, _ => false
  | .finite m k, .finite n j => decide (m * 10 ^ j ≤ n * 10 ^ k)
  | .finite _ _, .neginf => false

/-- Python `<` on floats: every comparison with `nan` is false. -/
def pyLt : PyFloat → PyFloat → Bool
  | .nan, _ => false
  | _, .nan => false
  | .neginf, .neginf => false
  | .neginf, _ => true
  | _, .neginf => false
  | .finite m k, .finite n j => decide (m * 10 ^ j < n * 10 ^ k)
  | .finite _ _, .inf => true
  | .inf, _ => false

def pyNeg : PyFloat → PyFloat
  | .finite m k => .finite (-m) k
  | .inf => .neginf
  | .neginf => .inf
  | .nan => .nan

/-- Apply a base-ten exponent to a decimal mantissa/scale pair. -/
def applyExp (m : ℤ) (k : ℕ) (e : ℤ) : PyFloat :=
  if 0 ≤ e then
    let e' := e.toNat
    if k ≤ e' then .finite (m * 10 ^ (e' - k)) 0 else .finite m (k - e')
  else .finite m (k + (-e).toNat)

/-- The optional exponent tail of a decimal literal: empty, or
`e`/`E` (already lowercased) followed by an optional sign and digits. -/
def parseExpTail : Str → Option ℤ
  | [] => some 0
  | 'e' :: r =>
      match r with
      | '+' :: d => if d ≠ [] ∧ d.all isDigitB then some (digitsVal d) else none
      | '-' :: d => if d ≠ [] ∧ d.all isDigitB then some (-(digitsVal d : ℤ)) else none
      | d => if d ≠ [] ∧ d.all isDigitB then some (digitsVal d) else none
  | _ => none

/-- An unsigned decimal literal `digits[.digits][e[sign]digits]` with at
least one digit in the integer or fractional part. -/
def parseDecimal (r : Str) : Option PyFloat :=
  let ip := r.takeWhile isDigitB
  let r1 := r.dropWhile isDigitB
  match r1 with
  | '.' :: r2 =>
      let fp := r2.takeWhile isDigitB
      let r3 := r2.dropWhile isDigitB
      if ip = [] ∧ fp = [] then none
      else
        match parseExpTail r3 with
        | some e => some (applyExp (digitsVal (ip ++ fp)) fp.length e)
        | none => none
  | _ =>
      if ip = [] then none
      else
        match parseExpTail r1 with
        | some e => some (applyExp (digitsVal ip) 0 e)
        | none => none

/-- An unsigned Python float literal body (already stripped and
lowercased): `inf`, `infinity`, `nan`, or a decimal literal. -/
def parseUnsignedFloat (r : Str) : Option PyFloat :=
  if r = ('i' :: 'n' :: 'f' :: []) ∨ r = ('i' :: 'n' :: 'f' :: 'i' :: 'n' :: 'i' :: 't' :: 'y' :: []) then some .inf
  else if r = ('n' :: 'a' :: 'n' :: []) then some .nan
  else parseDecimal r

/-- Python `float(s)` on a string: surrounding whitespace is ignored, the
literal is case-insensitive, an optional sign precedes the body. -/
def parseFloat (s : Str) : Option PyFloat :=
  let t := pyLower (pyStrip s)
  match t with
  | '+' :: r => parseUnsignedFloat r
  | '-' :: r => (parseUnsignedFloat r).map pyNeg
  | r => parseUnsignedFloat r

/-- Python `int(s)`: surrounding whitespace is ignored, an optional single
sign precedes one or more digits (underscore grouping is not modelled). -/
def parsePyInt (s : Str) : Option ℤ :=
  match pyStrip s with
  | '+' :: d => if d ≠ [] ∧ d.all isDigitB then some (digitsVal d) else none
  | '-' :: d => if d ≠ [] ∧ d.all isDigitB then some (-(digitsVal d : ℤ)) else none
  | d => if d ≠ [] ∧ d.all isDigitB then some (digitsVal d) else none

-- ------------------------------------------------------------------
-- bot.py helpers
-- ------------------------------------------------------------------

/-- The cancellation keywords of `bot.py`'s `is_cancel`. -/
def CANCEL_WORDS : List Str :=
  [("отмена").data, ("/cancel").data, ("cancel").data]

/-- `bot.py` `is_cancel`: `text.strip().lower() in ("отмена", "/cancel", "cancel")`. -/
def is_cancel (text : Str) : Bool :=
  decide (pyLower (pyStrip text) ∈ CANCEL_WORDS)

deriving instance DecidableEq for Except

/-- The failure classification of `parse_amount_and_text`
(`ValueError("cancel" | "format" | "amount" | "desc")`). -/
inductive ParseErr where
  | cancel
  | format
  | amount
  | desc
deriving DecidableEq

/-- `bot.py` `parse_amount_and_text`: expects `"сумма, текст"`; rejects a
cancel keyword, requires a comma, splits on the first comma, strips the
amount part, replaces "," by "." in it, parses it as a float that must not
be `<= 0`, and requires a non-blank description after the comma. -/
def parse_amount_and_text (line : Str) : Except ParseErr (PyFloat × Str) :=
  if is_cancel line then .error .cancel
  else if (',') ∈ line then
    let p := splitFirst ',' line
    let amount_str := pyReplace ',' '.' (pyStrip p.1)
    match parseFloat amount_str with
    | none => .error .amount
    | some amount =>
        if pyLe amount (.finite 0 0) then .error .amount
        else
          let description := pyStrip p.2
          if description = [] then .error .desc
          else .ok (amount, description)
  else .error .format

/-- `GainSpend.py` `income_amount` / `expense_amount` validation:
`float(text.replace(",", ".").strip())`, rejecting values `<= 0`;
`none` means the handler re-prompts for the amount. -/
def income_amount_parse (text : Str) : Option PyFloat :=
  match parseFloat (pyStrip (pyReplace ',' '.' text)) with
  | none => none
  | some amount => if pyLe amount (.finite 0 0) then none else some amount

/-- `bot.py` `parse_month_mm_yy`: split on "-", require exactly two
fields, parse both as ints, require `1 <= mm <= 12`, return
`(2000 + yy, mm)`; `none` models `ValueError` (`InvalidMonthFormat`). -/
def parse_month_mm_yy (text : Str) : Option (ℤ × ℤ) :=
  match splitOnChar '-' text with
  | [a, b] =>
      match parsePyInt a, parsePyInt b with
      | some mm, some yy =>
          if 1 ≤ mm ∧ mm ≤ 12 then some (2000 + yy, mm) else none
      | _, _ => none
  | _ => none

/-- `GainSpend.py` `parse_mm_yy`: the same algorithm as
`bot.py`'s `parse_month_mm_yy`. -/
def parse_mm_yy (text : Str) : Option (ℤ × ℤ) :=
  match splitOnChar '-' text with
  | [a, b] =>
      match parsePyInt a, parsePyInt b with
      | some mm, some yy =>
          if 1 ≤ mm ∧ mm ≤ 12 then some (2000 + yy, mm) else none
      | _, _ => none
  | _ => none


-- ------------------------------------------------------------------
-- Categories (both revisions)
-- ------------------------------------------------------------------

/-- The fixed expense category list, identical in both revisions. -/
def EXPENSE_CATEGORIES : List Str :=
  [("Еда").data, ("Дом").data, ("Коммуналка").data, ("Досуг").data, ("НЗ").data]

/-- The per-category emoji table, identical in both revisions. -/
def CATEGORY_EMOJI : List (Str × Str) :=
  [(("Еда").data, ("🍽️").data), (("Дом").data, ("🏠").data),
   (("Коммуналка").data, ("💡").data), (("Досуг").data, ("🎉").data),
   (("НЗ").data, ("📦").data)]

/-- `CATEGORY_EMOJI.get(cat, "")` for a possibly absent category key. -/
def emojiGet (c : Option Str) : Str :=
  match c with
  | none => []
  | some s =>
      match CATEGORY_EMOJI.find? (fun p => p.1 = s) with
      | some p => p.2
      | none => []

/-- The `for cat in EXPENSE_CATEGORIES: if cat in text: return cat` loop of
`bot.py`'s `extract_category`. -/
def findCat (t : Str) : List Str → Option Str
  | [] => none
  | c :: rest => if c <:+: t then some c else findCat t rest

/-- `bot.py` `extract_category`: strip the input, then return the first
category in list order whose label occurs inside it. -/
def extract_category (text : Str) : Option Str :=
  findCat (pyStrip text) EXPENSE_CATEGORIES

/-- The loop of `GainSpend.py`'s `extract_category_from_button`:
`if text == cat or text.endswith(cat) or cat in text: return cat`. -/
def findCatBtn (t : Str) : List Str → Option Str
  | [] => none
  | c :: rest => if t = c ∨ c <:+ t ∨ c <:+: t then some c else findCatBtn t rest

/-- `GainSpend.py` `extract_category_from_button`. -/
def extract_category_from_button (text : Str) : Option Str :=
  findCatBtn (pyStrip text) EXPENSE_CATEGORIES

-- ------------------------------------------------------------------
-- Ledger store and statistics queries
-- ------------------------------------------------------------------

/-- A row of the `records` table.  `type` is the TEXT column holding
"income" or "expense"; `category` is NULL for income; `amount` is the
`NUMERIC(12,2)` value; `createdAt` is an abstract monotone timestamp
standing for the `TIMESTAMPTZ` column (the code only compares them). -/
structure DBRecord where
  userId : ℕ
  type : Str
  category : Option Str
  amount : ℚ
  description : Str
  createdAt : ℕ
deriving DecidableEq

/-- The half-open range filter of the WHERE clause:
`created_at >= date_from` (if given) and `created_at < date_to` (if given). -/
def inRange (dateFrom dateTo : Option ℕ) (ts : ℕ) : Bool :=
  (match dateFrom with
   | none => true
   | some f => decide (f ≤ ts))
  &&
  (match dateTo with
   | none => true
   | some t => decide (ts < t))

/-- The WHERE clause shared by `get_stats` and `get_records`:
`user_id = %s` plus the optional date bounds. -/
def matchesQ (u : ℕ) (dateFrom dateTo : Option ℕ) (r : DBRecord) : Bool :=
  decide (r.userId = u) && inRange dateFrom dateTo r.createdAt

/-- First-occurrence-order list of distinct keys. -/
def dedupKeys {κ : Type} [DecidableEq κ] (l : List κ) : List κ :=
  l.foldl (fun acc k => if k ∈ acc then acc else acc ++ [k]) []

/-- SQL `SELECT key, SUM(amount) ... GROUP BY key`, one output pair per
distinct key (rows listed in first-occurrence order). -/
def groupSum {κ : Type} [DecidableEq κ] (l : List (κ × ℚ)) : List (κ × ℚ) :=
  (dedupKeys (l.map Prod.fst)).map
    (fun k => (k, ((l.filter (fun p => p.1 = k)).map Prod.snd).sum))

/-- Python `dict.get(k, 0)` on the mapping produced by a grouped query. -/
def getD {κ : Type} [DecidableEq κ] (m : List (κ × ℚ)) (k : κ) : ℚ :=
  match m.find? (fun p => p.1 = k) with
  | some p => p.2
  | none => 0

/-- `get_stats` (identical in both revisions): totals by type over the
records matching the user and the optional half-open date range, and
totals by category over the matching expense records. -/
def get_stats (u : ℕ) (dateFrom dateTo : Option ℕ) (db : List DBRecord) :
    List (Str × ℚ) × List (Option Str × ℚ) :=
  let rows := db.filter (matchesQ u dateFrom dateTo)
  (groupSum (rows.map (fun r => (r.type, r.amount))),
   groupSum ((rows.filter (fun r => r.type = ("expense").data)).map
     (fun r => (r.category, r.amount))))

/-- Lexicographic strict order on strings by character code (the order a
SQL text `ORDER BY` produces for these ASCII/Cyrillic labels). -/
def strLtB : Str → Str → Bool
  | _, [] => false
  | [], _ :: _ => true
  | a :: as, b :: bs =>
      if a < b then true else if b < a then false else strLtB as bs

/-- Insertion of an element into a sorted list (used by `sortLe`). -/
def insertLe {α : Type} (le : α → α → Bool) (a : α) : List α → List α
  | [] => [a]
  | b :: bs => if le a b then a :: b :: bs else b :: insertLe le a bs

/-- Insertion sort by a boolean "less or equal" relation. -/
def sortLe {α : Type} (le : α → α → Bool) : List α → List α
  | [] => []
  | a :: as => insertLe le a (sortLe le as)

/-- The `ORDER BY type, COALESCE(category, ''), created_at` key order of
`bot.py`'s `get_records`. -/
def recKeyLe (r s : DBRecord) : Bool :=
  if strLtB r.type s.type then true
  else if strLtB s.type r.type then false
  else
    if strLtB (r.category.getD []) (s.category.getD []) then true
    else if strLtB (s.category.getD []) (r.category.getD []) then false
    else decide (r.createdAt ≤ s.createdAt)

/-- `bot.py` `get_records`: all records matching the user and range,
ordered by (type, COALESCE(category, ''), created_at). -/
def get_records (u : ℕ) (dateFrom dateTo : Option ℕ) (db : List DBRecord) :
    List DBRecord :=
  sortLe recKeyLe (db.filter (matchesQ u dateFrom dateTo))


-- ------------------------------------------------------------------
-- Reply rendering
-- ------------------------------------------------------------------

/-- Two-digit zero-padded rendering of a value below 100. -/
def pad2 (n : ℕ) : Str :=
  if n < 10 then '0' :: natDigits n else natDigits n

/-- Python `f"{x:.2f}"` on an exact decimal quantity: the amount rounded
to cents and printed with exactly two fraction digits.  Amounts rendered
by the bot are `NUMERIC(12,2)` values (exact cents), for which every
rounding mode agrees; the half-to-even behaviour of binary floats on
inexact values is not modelled. -/
def fmt2 (q : ℚ) : Str :=
  let n : ℤ := Int.fdiv (200 * q.num + (q.den : ℤ)) (2 * (q.den : ℤ))
  (if n < 0 then [('-')] else []) ++ natDigits (n.natAbs / 100)
    ++ [('.')] ++ pad2 (n.natAbs % 100)

/-- Python `x or 0` on a number: `0` stays `0`, anything else is itself. -/
def pyOrZero (q : ℚ) : ℚ := if q = 0 then 0 else q

/-- The `НЗ`-separation loop of `GainSpend.py`'s `send_stats`:
`nz_amount` is the value bound to the `"НЗ"` key (0 if absent) and
`other_cats` collects every other (category, amount) pair in order. -/
def send_stats_split (categories : List (Option Str × ℚ)) :
    ℚ × List (Option Str × ℚ) :=
  categories.foldl
    (fun acc p =>
      if p.1 = some (("НЗ").data) then (p.2, acc.2) else (acc.1, acc.2 ++ [p]))
    (0, [])

/-- One `• {prefix}{cat_name}: {amt:.2f} ₽` category line of
`GainSpend.py`'s `send_stats` (`cat_name` falls back to "Без категории"
for a falsy — NULL or empty — category). -/
def catLine (p : Option Str × ℚ) : Str :=
  let nm :=
    match p.1 with
    | none => ("Без категории").data
    | some [] => ("Без категории").data
    | some s => s
  let e := emojiGet p.1
  let pr := if e = [] then [] else e ++ [(' ')]
  ("• ").data ++ pr ++ nm ++ (": ").data ++ fmt2 p.2 ++ (" ₽").data

/-- `GainSpend.py` `send_stats`: the list of text lines of the summary
report.  The category block appears only when there are non-`НЗ`
categories; the `НЗ` block appears only when `nz_amount` is truthy
(non-zero). -/
def send_stats_lines (sums : List (Str × ℚ)) (cats : List (Option Str × ℚ))
    (label : Str) : List Str :=
  let income := pyOrZero (getD sums (("income").data))
  let expense := pyOrZero (getD sums (("expense").data))
  let balance := income - expense
  let s := send_stats_split cats
  ([("📊 Статистика: ").data ++ label, [],
    ("Доход: ").data ++ fmt2 income ++ (" ₽").data,
    ("Расход: ").data ++ fmt2 expense ++ (" ₽").data,
    ("Баланс: ").data ++ fmt2 balance ++ (" ₽").data]
   ++ (if s.2 = [] then []
       else [[], ("Расходы по категориям:").data] ++ s.2.map catLine)
   ++ (if s.1 = 0 then []
       else
         let e := emojiGet (some (("НЗ").data))
         let pr := if e = [] then [] else e ++ [(' ')]
         [[], ("НЗ (Запас):").data,
          ("• ").data ++ pr ++ ("НЗ: ").data ++ fmt2 s.1 ++ (" ₽").data]))

/-- `bot.py` `send_summary_stats`: the six text lines of the summary
report; the `Запас (НЗ)` line is always present. -/
def send_summary_stats (sums : List (Str × ℚ)) (cats : List (Option Str × ℚ))
    (label : Str) : List Str :=
  let income := getD sums (("income").data)
  let expense := getD sums (("expense").data)
  let nz := getD cats (some (("НЗ").data))
  let on_hands := income - expense
  [("📊 Общая статистика: ").data ++ label, [],
   ("Доходы: ").data ++ fmt2 income ++ (" ₽").data,
   ("Расходы: ").data ++ fmt2 expense ++ (" ₽").data,
   ("Запас (НЗ): ").data ++ fmt2 nz ++ (" ₽").data,
   ("На руках: ").data ++ fmt2 on_hands ++ (" ₽").data]

/-- One `• {date} — {amount:.2f} ₽ — {desc}` detail line of
`bot.py`'s `send_detailed_stats`; `dateFmt` stands for the external
`strftime("%Y-%m-%d")` rendering of the timestamp. -/
def rowLine (dateFmt : ℕ → Str) (r : DBRecord) : Str :=
  ("• ").data ++ dateFmt r.createdAt ++ (" — ").data ++ fmt2 r.amount
    ++ (" ₽ — ").data ++ r.description

/-- The `expenses_by_cat` grouping of `send_detailed_stats`: categories in
first-occurrence order, each with its rows in row order. -/
def groupRows (l : List DBRecord) : List (Option Str × List DBRecord) :=
  (dedupKeys (l.map (fun r => r.category))).map
    (fun k => (k, l.filter (fun r => r.category = k)))

/-- The category header of a detail block: emoji prefix when the category
is known, "Без категории" for a falsy (NULL or empty) category. -/
def detailCatHeader (c : Option Str) : Str :=
  let nm :=
    match c with
    | none => ("Без категории").data
    | some [] => ("Без категории").data
    | some s => s
  let e := emojiGet c
  let pr := if e = [] then [] else e ++ [(' ')]
  pr ++ nm ++ (":").data

/-- `"\n".join(lines)`. -/
def joinNL : List Str → Str
  | [] => []
  | [l] => l
  | l :: rest => l ++ '\n' :: joinNL rest

/-- `bot.py` `send_detailed_stats`: the full reply text.  With no rows it
is the dedicated "no records in this period" message; otherwise incomes
come first, then the expense blocks grouped by category, category keys
sorted by `COALESCE`-style key `c or ""`. -/
def send_detailed_stats (dateFmt : ℕ → Str) (rows : List DBRecord)
    (label : Str) : Str :=
  if rows = [] then
    ("За период «").data ++ label ++ ("» записей нет.").data
  else
    let incomes := (rows.filter (fun r => r.type = ("income").data)).map (rowLine dateFmt)
    let expByCat := groupRows (rows.filter (fun r => ¬ r.type = ("income").data))
    let sorted := sortLe (fun a b => !(strLtB (b.1.getD []) (a.1.getD []))) expByCat
    let lines :=
      [("📋 Детальная статистика: ").data ++ label, []]
      ++ (if incomes = [] then [] else (("Доходы:").data :: incomes) ++ [[]])
      ++ (if expByCat = [] then []
          else ("Расходы по категориям:").data ::
            sorted.flatMap (fun p =>
              detailCatHeader p.1 :: p.2.map (rowLine dateFmt) ++ [[]]))
    pyStrip (joinNL lines)


-- ------------------------------------------------------------------
-- bot.py conversation state machine
-- ------------------------------------------------------------------

/-- The conversation states of `bot.py` (`range(6)`) plus the terminal
`ConversationHandler.END`. -/
inductive BotState where
  | incomeLine
  | expenseCategory
  | expenseLine
  | statsPeriod
  | statsCustomMonth
  | statsDetailLevel
  | endState
deriving DecidableEq

/-- The `context.user_data` scratch keys used by `bot.py`:
`"expense_category"` and `"stats_range"` (bounds plus label). -/
structure UserData where
  expenseCat : Option Str
  statsRange : Option (Option ℕ × Option ℕ × Str)
deriving DecidableEq

/-- An `INSERT INTO records ...` effect produced by `add_record`
(the `created_at = utcnow()` column is supplied by the environment). -/
structure Ins where
  userId : ℕ
  type : Str
  amount : PyFloat
  description : Str
  category : Option Str
deriving DecidableEq

/-- The observable outcome of one text-message step: next conversation
state, updated scratch data, and the records inserted. -/
structure StepOut where
  next : BotState
  ud : UserData
  inserted : List Ins
deriving DecidableEq

/-- One text-message step of `bot.py`'s conversation handlers, dispatched
by the current state.  `cur` is the current-month range computed by
`get_current_month_range()` from today's date and `toTs` the timestamp of
midnight on the first day of a (year, month) — both supplied by the
environment.  Replies are modelled separately (`send_stats_lines`,
`send_summary_stats`, `send_detailed_stats`); statistics queries read but
never insert.  Command messages (leading "/") are routed by the framework
to the `/cancel` fallback instead of these handlers. -/
def bot_step (uid : ℕ) (cur : ℕ × ℕ) (toTs : ℤ → ℤ → ℕ) :
    BotState → UserData → Str → StepOut
  | .incomeLine, ud, text =>
      if is_cancel text then ⟨.endState, ud, []⟩
      else
        match parse_amount_and_text text with
        | .error .cancel => ⟨.endState, ud, []⟩
        | .error _ => ⟨.incomeLine, ud, []⟩
        | .ok (amount, source) =>
            ⟨.endState, ud, [⟨uid, ("income").data, amount, source, none⟩]⟩
  | .expenseCategory, ud, text =>
      match extract_category text with
      | none => ⟨.expenseCategory, ud, []⟩
      | some cat => ⟨.expenseLine, { ud with expenseCat := some cat }, []⟩
  | .expenseLine, ud, text =>
      if is_cancel text then ⟨.endState, { ud with expenseCat := none }, []⟩
      else
        match parse_amount_and_text text with
        | .error .cancel => ⟨.endState, { ud with expenseCat := none }, []⟩
        | .error _ => ⟨.expenseLine, ud, []⟩
        | .ok (amount, target) =>
            ⟨.endState, { ud with expenseCat := none },
             [⟨uid, ("expense").data, amount, target, ud.expenseCat⟩]⟩
  | .statsPeriod, ud, text =>
      let choice := pyStrip text
      if choice = ("Текущий месяц").data then
        ⟨.statsDetailLevel,
         { ud with statsRange := some (some cur.1, some cur.2, ("Текущий месяц").data) }, []⟩
      else if choice = ("За всё время").data then
        ⟨.statsDetailLevel,
         { ud with statsRange := some (none, none, ("За всё время").data) }, []⟩
      else if choice = ("Выбрать месяц").data then ⟨.statsCustomMonth, ud, []⟩
      else ⟨.statsPeriod, ud, []⟩
  | .statsCustomMonth, ud, text =>
      match parse_month_mm_yy (pyStrip text) with
      | none => ⟨.statsCustomMonth, ud, []⟩
      | some (y, m) =>
          let nm := if m = 12 then (y + 1, (1 : ℤ)) else (y, m + 1)
          let lbl := ("Месяц ").data ++ pad2 m.toNat ++ [('-')]
            ++ (natDigits y.toNat).drop ((natDigits y.toNat).length - 2)
          ⟨.statsDetailLevel,
           { ud with statsRange := some (some (toTs y m), some (toTs nm.1 nm.2), lbl) }, []⟩
  | .statsDetailLevel, ud, text =>
      match ud.statsRange with
      | none => ⟨.endState, ud, []⟩
      | some _ =>
          let choice := pyStrip text
          if choice = ("Общее").data then ⟨.endState, ud, []⟩
          else if choice = ("Детально").data then ⟨.endState, ud, []⟩
          else ⟨.statsDetailLevel, ud, []⟩
  | .endState, ud, _ => ⟨.endState, ud, []⟩


-- ------------------------------------------------------------------
-- Concrete record fixtures
-- ------------------------------------------------------------------

/-- The record multiset of the statistics example: income 1000 "salary",
expense 200 "Еда" "lunch", expense 50 "НЗ" "save", all on day `D1`,
modelled as timestamp 100, for user 1. -/
def c6db : List DBRecord :=
  [⟨1, ("income").data, none, 1000, ("salary").data, 100⟩,
   ⟨1, ("expense").data, some (("Еда").data), 200, ("lunch").data, 100⟩,
   ⟨1, ("expense").data, some (("НЗ").data), 50, ("save").data, 100⟩]

/-- A ledger with only the income record (no expense kind present). -/
def c6single : List DBRecord :=
  [⟨1, ("income").data, none, 1000, ("salary").data, 100⟩]

-- ------------------------------------------------------------------
-- Helper lemmas
-- ------------------------------------------------------------------

theorem mem_dropWhile_of_neg {α : Type} {p : α → Bool} {c : α} :
    ∀ {l : List α}, c ∈ l → p c = false → c ∈ l.dropWhile p := by
  intro l
  induction l with
  | nil => intro h; cases h
  | cons a as ih =>
      intro hm hp
      by_cases ha : p a = true
      · rw [List.dropWhile_cons_of_pos ha]
        rcases List.mem_cons.mp hm with rfl | hm'
        · rw [hp] at ha; cases ha
        · exact ih hm' hp
      · rw [List.dropWhile_cons_of_neg ha]
        exact hm

theorem mem_pyStrip {c : Char} {l : Str} (hm : c ∈ l) (hw : wsChar c = false) :
    c ∈ pyStrip l := by
  unfold pyStrip
  rw [List.mem_reverse]
  exact mem_dropWhile_of_neg (List.mem_reverse.mpr (mem_dropWhile_of_neg hm hw)) hw

theorem pyStrip_infix_self (l : Str) : pyStrip l <:+: l := by
  unfold pyStrip
  have h1 : l.dropWhile wsChar <:+ l := List.dropWhile_suffix wsChar
  have h2 : (l.dropWhile wsChar).reverse.dropWhile wsChar <:+ (l.dropWhile wsChar).reverse :=
    List.dropWhile_suffix wsChar
  obtain ⟨s, hs⟩ := h2
  have h3 : ((l.dropWhile wsChar).reverse.dropWhile wsChar).reverse <+: l.dropWhile wsChar := by
    refine ⟨s.reverse, ?_⟩
    have := congrArg List.reverse hs
    simpa using this
  exact h3.isInfix.trans h1.isInfix

theorem infix_dropWhile {cat : Str} (hne : cat ≠ [])
    (hwf : ∀ ch ∈ cat, wsChar ch = false) :
    ∀ {l : Str}, cat <:+: l → cat <:+: l.dropWhile wsChar := by
  intro l
  induction l with
  | nil =>
      intro h
      have := List.eq_nil_of_infix_nil h
      exact absurd this hne
  | cons a as ih =>
      intro h
      by_cases ha : wsChar a = true
      · rw [List.dropWhile_cons_of_pos ha]
        obtain ⟨s, t, hst⟩ := h
        cases s with
        | nil =>
            obtain ⟨c, cs, rfl⟩ := List.exists_cons_of_ne_nil hne
            simp only [List.nil_append, List.cons_append] at hst
            have hc : c = a := (List.cons.injEq _ _ _ _).mp hst |>.1
            have : wsChar c = false := hwf c (List.mem_cons_self c cs)
            rw [hc, ha] at this
            cases this
        | cons b s' =>
            simp only [List.cons_append] at hst
            have has : as = s' ++ cat ++ t := ((List.cons.injEq _ _ _ _).mp hst).2.symm
            exact ih ⟨s', t, has.symm⟩
      · rw [List.dropWhile_cons_of_neg ha]
        exact h

theorem infix_pyStrip_iff {cat : Str} (hne : cat ≠ [])
    (hwf : ∀ ch ∈ cat, wsChar ch = false) (l : Str) :
    cat <:+: pyStrip l ↔ cat <:+: l := by
  constructor
  · intro h
    exact h.trans (pyStrip_infix_self l)
  · intro h
    unfold pyStrip
    have h1 : cat <:+: l.dropWhile wsChar := infix_dropWhile hne hwf h
    have h2 : cat.reverse <:+: (l.dropWhile wsChar).reverse :=
      List.reverse_infix.mpr h1
    have hne' : cat.reverse ≠ [] := by
      intro hc
      exact hne (by simpa using congrArg List.reverse hc)
    have hwf' : ∀ ch ∈ cat.reverse, wsChar ch = false := by
      intro ch hch
      exact hwf ch (List.mem_reverse.mp hch)
    have h3 : cat.reverse <:+: ((l.dropWhile wsChar).reverse.dropWhile wsChar) :=
      infix_dropWhile hne' hwf' h2
    have h4 := List.reverse_infix.mpr h3
    simpa using h4

theorem is_cancel_words {t : Str} (h : is_cancel t = true) :
    pyLower (pyStrip t) ∈ CANCEL_WORDS := of_decide_eq_true h

theorem is_cancel_of_comma {l : Str} (h : (',') ∈ l) : is_cancel l = false := by
  by_contra hc
  have hc' : is_cancel l = true := by
    cases h2 : is_cancel l
    · exact absurd h2 hc
    · rfl
  have hw := is_cancel_words hc'
  have h1 : (',') ∈ pyStrip l := mem_pyStrip h (by decide)
  have h2 : (',') ∈ pyLower (pyStrip l) := by
    have he : pyLowerChar ',' = ',' := by decide
    have := List.mem_map_of_mem pyLowerChar h1
    rwa [he] at this
  have h3 : ∀ w ∈ CANCEL_WORDS, (',') ∉ w := by decide
  exact h3 _ hw h2

theorem splitFirst_append {c : Char} {rest : Str} :
    ∀ {a : Str}, c ∉ a → splitFirst c (a ++ c :: rest) = (a, rest) := by
  intro a
  induction a with
  | nil =>
      intro _
      simp [splitFirst]
  | cons x xs ih =>
      intro h
      have hx : ¬ x = c := fun hc => h (by rw [hc]; exact List.mem_cons_self c xs)
      simp only [List.cons_append, splitFirst, if_neg hx]
      rw [show xs.append (c :: rest) = xs ++ c :: rest from rfl,
        ih (fun hm => h (List.mem_cons_of_mem x hm))]

theorem pyReplace_noop {old new : Char} :
    ∀ {l : Str}, old ∉ l → pyReplace old new l = l := by
  intro l
  induction l with
  | nil => intro _; rfl
  | cons x xs ih =>
      intro h
      have hx : ¬ x = old := fun hc => h (by rw [hc]; exact List.mem_cons_self old xs)
      simp only [pyReplace, List.map_cons, if_neg hx]
      have := ih (fun hm => h (List.mem_cons_of_mem x hm))
      simpa [pyReplace] using this

theorem pyStrip_cons_space (d : Str) : pyStrip (' ' :: d) = pyStrip d := by
  unfold pyStrip
  rw [List.dropWhile_cons_of_pos (by decide)]

theorem splitOnChar_single {c : Char} :
    ∀ {l : Str}, c ∉ l → splitOnChar c l = [l] := by
  intro l
  induction l with
  | nil => intro _; rfl
  | cons x xs ih =>
      intro h
      have hx : ¬ x = c := fun hc => h (by rw [hc]; exact List.mem_cons_self c xs)
      simp only [splitOnChar, if_neg hx]
      rw [ih (fun hm => h (List.mem_cons_of_mem x hm))]

theorem findCat_eq_none {t : Str} :
    ∀ {l : List Str}, (∀ c ∈ l, ¬ c <:+: t) → findCat t l = none := by
  intro l
  induction l with
  | nil => intro _; rfl
  | cons c rest ih =>
      intro h
      simp only [findCat, if_neg (h c (List.mem_cons_self c rest))]
      exact ih (fun d hd => h d (List.mem_cons_of_mem c hd))

theorem findCat_eq_some {t : Str} :
    ∀ {l : List Str} {c : Str}, findCat t l = some c →
      ∃ pre post, l = pre ++ c :: post ∧ c <:+: t ∧ ∀ d ∈ pre, ¬ d <:+: t := by
  intro l
  induction l with
  | nil => intro c h; cases h
  | cons b rest ih =>
      intro c h
      by_cases hb : b <:+: t
      · simp only [findCat, if_pos hb] at h
        obtain rfl : b = c := (Option.some.injEq _ _).mp h
        exact ⟨[], rest, rfl, hb, by intro d hd; cases hd⟩
      · simp only [findCat, if_neg hb] at h
        obtain ⟨pre, post, hl, hc, hpre⟩ := ih h
        refine ⟨b :: pre, post, by rw [hl]; rfl, hc, ?_⟩
        intro d hd
        rcases List.mem_cons.mp hd with rfl | hd'
        · exact hb
        · exact hpre d hd'

theorem cancel_strip_ne {t L : Str} (h : is_cancel t = true)
    (hL : pyLower L ∉ CANCEL_WORDS) : ¬ pyStrip t = L := by
  intro he
  exact hL (he ▸ is_cancel_words h)

theorem extract_category_cancel {t : Str} (h : is_cancel t = true) :
    extract_category t = none := by
  apply findCat_eq_none
  intro c hc hinf
  have hw := is_cancel_words h
  have hinf' : pyLower c <:+: pyLower (pyStrip t) := List.IsInfix.map pyLowerChar hinf
  have hno : ∀ c ∈ EXPENSE_CATEGORIES, ∀ w ∈ CANCEL_WORDS, ¬ pyLower c <:+: w := by decide
  exact hno c hc _ hw hinf'

theorem parse_month_cancel {t : Str} (h : is_cancel t = true) :
    parse_month_mm_yy (pyStrip t) = none := by
  have hnd : ('-') ∉ pyStrip t := by
    intro hm
    have h2 : ('-') ∈ pyLower (pyStrip t) := by
      have he : pyLowerChar '-' = '-' := by decide
      have := List.mem_map_of_mem pyLowerChar hm
      rwa [he] at this
    have h3 : ∀ w ∈ CANCEL_WORDS, ('-') ∉ w := by decide
    exact h3 _ (is_cancel_words h) h2
  rw [parse_month_mm_yy, splitOnChar_single hnd]

theorem findCatBtn_eq (t : Str) : ∀ l : List Str, findCatBtn t l = findCat t l := by
  intro l
  induction l with
  | nil => rfl
  | cons c rest ih =>
      by_cases h : c <:+: t
      · rw [findCatBtn, findCat, if_pos h, if_pos (Or.inr (Or.inr h))]
      · have h2 : ¬ (t = c ∨ c <:+ t ∨ c <:+: t) := by
          rintro (rfl | hs | hi)
          · exact h (List.infix_refl _)
          · exact h hs.isInfix
          · exact h hi
        rw [findCatBtn, findCat, if_neg h2, if_neg h, ih]

-- ------------------------------------------------------------------
-- Claim theorems
-- ------------------------------------------------------------------

/-- C10: the category-extraction functions of the two revisions are
extensionally equal: for every input string,
`extract_category_from_button` (equality / suffix / substring tests)
returns the same result as `extract_category` (substring test only),
because the equality and suffix tests are subsumed by the substring
test. -/
theorem C10_extract_equiv :
    ∀ t : Str, extract_category_from_button t = extract_category t := by
  intro t
  unfold extract_category_from_button extract_category
  exact findCatBtn_eq (pyStrip t) EXPENSE_CATEGORIES

theorem C10_extract_equiv_witness :
    extract_category_from_button (("🍽️ Еда").data)
      = extract_category (("🍽️ Еда").data) :=
  C10_extract_equiv (("🍽️ Еда").data)

/-- C5: month-selector parsing accepts exactly hyphen-separated two-field
inputs with month between 1 and 12, returning `(2000 + YY, MM)`:
`"11-25"` parses to `(2025, 11)`, while `"13-25"` and `"11"` fail; both
revisions implement the same function, and every accepted input splits
into exactly two fields whose integer values are the returned month and
`year - 2000`. -/
theorem C5_month_parse :
    parse_month_mm_yy (("11-25").data) = some (2025, 11)
    ∧ parse_month_mm_yy (("13-25").data) = none
    ∧ parse_month_mm_yy (("11").data) = none
    ∧ (∀ s, parse_mm_yy s = parse_month_mm_yy s)
    ∧ (∀ s y m, parse_month_mm_yy s = some (y, m) →
        1 ≤ m ∧ m ≤ 12 ∧ ∃ a b, splitOnChar '-' s = [a, b] ∧
          parsePyInt a = some m ∧ parsePyInt b = some (y - 2000)) := by
  refine ⟨by decide, by decide, by decide, fun s => rfl, ?_⟩
  intro s y m h
  unfold parse_month_mm_yy at h
  rcases hsp : splitOnChar '-' s with _ | ⟨a, _ | ⟨b, _ | _⟩⟩ <;> rw [hsp] at h
  · cases h
  · cases h
  · have h' : (match parsePyInt a, parsePyInt b with
        | some mm, some yy => if 1 ≤ mm ∧ mm ≤ 12 then some (2000 + yy, mm) else none
        | _, _ => none) = some (y, m) := h
    rcases hpa : parsePyInt a with _ | mm <;> rw [hpa] at h'
    · cases h'
    · rcases hpb : parsePyInt b with _ | yy <;> rw [hpb] at h'
      · cases h'
      · have h2 : (if 1 ≤ mm ∧ mm ≤ 12 then some (2000 + yy, mm) else none)
            = some (y, m) := h'
        by_cases hif : 1 ≤ mm ∧ mm ≤ 12
        · rw [if_pos hif] at h2
          have hy : y = 2000 + yy ∧ m = mm := by
            have := (Option.some.injEq _ _).mp h2
            exact ⟨(Prod.mk.injEq _ _ _ _ ▸ this).1.symm, (Prod.mk.injEq _ _ _ _ ▸ this).2.symm⟩
          obtain ⟨hy1, hy2⟩ := hy
          subst hy2
          refine ⟨hif.1, hif.2, a, b, rfl, hpa, ?_⟩
          rw [hpb]
          congr 1
          omega
        · rw [if_neg hif] at h2
          cases h2
  · cases h

theorem C5_month_parse_witness : (1 : ℤ) ≤ 11 ∧ (11 : ℤ) ≤ 12 := by
  have h := C5_month_parse.2.2.2.2 (("11-25").data) 2025 11 C5_month_parse.1
  exact ⟨h.1, h.2.1⟩

/-- C2: the detailed-records query orders by the TEXT column `type`
ascending, and `"expense" < "income"` in text order, so an expense row is
returned before an income row — contradicting the claimed
income-before-expense order (and the code's own comment
`-- income, потом expense`).  Evaluation of the model at a ledger holding
one income record (created first) and one expense record: the expense row
comes out first. -/
theorem C2_expense_sorts_first :
    get_records 1 none none
      [⟨1, ("income").data, none, 1000, ("salary").data, 1⟩,
       ⟨1, ("expense").data, some (("Еда").data), 200, ("lunch").data, 2⟩]
    = [⟨1, ("expense").data, some (("Еда").data), 200, ("lunch").data, 2⟩,
       ⟨1, ("income").data, none, 1000, ("salary").data, 1⟩]
    ∧ strLtB (("expense").data) (("income").data) = true := by
  exact ⟨by decide, by decide⟩

/-- C3: the amount validation lets `"nan"` through: Python's
`float("nan")` succeeds and `nan <= 0` is false, so both the
separate-prompt validator of `GainSpend.py` and the single-line parser of
`bot.py` accept it, the expense dialog hands a record with amount `nan`
to persistence, and `nan > 0` does not hold — the only inputs violating
the claimed amount-positivity invariant. -/
theorem C3_nan_accepted :
    income_amount_parse (("nan").data) = some .nan
    ∧ parse_amount_and_text (("nan, обед").data) = .ok (.nan, ("обед").data)
    ∧ pyLt (.finite 0 0) .nan = false
    ∧ pyLe .nan (.finite 0 0) = false
    ∧ (bot_step 7 (0, 0) (fun _ _ => 0) .expenseLine
        ⟨some (("Еда").data), none⟩ (("nan, обед").data)).inserted
      = [⟨7, ("expense").data, .nan, ("обед").data, some (("Еда").data)⟩] := by
  exact ⟨by decide, by decide, by decide, by decide, by decide⟩

/-- C1 counterexample: parsing is not the identity on the claimed pair.
With description `"x "` (a non-empty string), parsing `"5, x "` yields
the stripped description `"x"`, not `"x "`; and an amount written with a
comma decimal separator is split at its first comma, so `"12,5, lunch"`
parses to `(12, "5, lunch")` rather than `(12.5, "lunch")`. -/
theorem C1_counterexample :
    parse_amount_and_text (("5, x ").data) = .ok (.finite 5 0, ("x").data)
    ∧ ¬ parse_amount_and_text (("5, x ").data) = .ok (.finite 5 0, ("x ").data)
    ∧ parse_amount_and_text (("12,5, lunch").data)
        = .ok (.finite 12 0, ("5, lunch").data) := by
  exact ⟨by decide, by decide, by decide⟩

/-- C1 (amended): for every positive decimal amount literal `a` written
with a period as decimal separator (no comma, no surrounding whitespace)
and every non-empty description `d` equal to its own whitespace-trimmed
form, parsing the single line `"a, d"` yields exactly the parsed amount
and `d`. -/
theorem C1_amended (a d : Str) (m : ℤ) (k : ℕ)
    (hpf : parseFloat a = some (.finite m k)) (hpos : 0 < m)
    (hnc : (',') ∉ a) (hsa : pyStrip a = a)
    (hsd : pyStrip d = d) (hne : d ≠ []) :
    parse_amount_and_text (a ++ (", ").data ++ d) = .ok (.finite m k, d) := by
  have hform : a ++ (", ").data ++ d = a ++ ',' :: (' ' :: d) := by simp
  have hcomma : (',') ∈ a ++ (", ").data ++ d := by
    rw [hform]
    exact List.mem_append_right a (List.mem_cons_self ',' (' ' :: d))
  have hcancel : ¬ is_cancel (a ++ (", ").data ++ d) = true := by
    rw [is_cancel_of_comma hcomma]
    exact Bool.false_ne_true
  have hsplit : splitFirst ',' (a ++ (", ").data ++ d) = (a, ' ' :: d) := by
    rw [hform]
    exact splitFirst_append hnc
  have hrepl : pyReplace ',' '.' (pyStrip a) = a := by
    rw [hsa]
    exact pyReplace_noop hnc
  have hle : pyLe (.finite m k) (.finite 0 0) = false := by
    have h0 : ¬ (m * 10 ^ 0 ≤ 0 * 10 ^ k) := by simpa using hpos.not_le
    show decide (m * 10 ^ 0 ≤ 0 * 10 ^ k) = false
    exact decide_eq_false h0
  have hdesc : pyStrip (' ' :: d) = d := by
    rw [pyStrip_cons_space, hsd]
  rw [parse_amount_and_text, if_neg hcancel, if_pos hcomma, hsplit]
  simp only [hrepl, hpf, hle, hdesc]
  simp [hne]

theorem C1_amended_witness :
    parse_amount_and_text ((("5").data ++ (", ").data ++ ("зарплата").data))
      = .ok (.finite 5 0, ("зарплата").data) :=
  C1_amended (("5").data) (("зарплата").data) 5 0 (by decide) (by decide)
    (by decide) (by decide) (by decide) (by decide)

/-- C4 counterexample: the cancel keyword does not cancel in every
non-idle state.  In the category-selection state, the input `"отмена"`
(which `is_cancel` recognizes) is not a category, so the handler
re-enters `EXPENSE_CATEGORY` instead of returning the conversation to
idle. -/
theorem C4_counterexample :
    is_cancel (("отмена").data) = true
    ∧ bot_step 1 (0, 0) (fun _ _ => 0) .expenseCategory ⟨none, none⟩ (("отмена").data)
        = ⟨.expenseCategory, ⟨none, none⟩, []⟩
    ∧ ¬ (BotState.expenseCategory = BotState.endState) := by
  exact ⟨by decide, by decide, by decide⟩

/-- C4 (amended): keyword cancellation works exactly in the two
line-collection states.  For every cancel-keyword text input, the
income-line and expense-line handlers persist nothing, discard the
expense scratch key and end the conversation; the category-selection,
period-selection and custom-month states re-enter themselves without
persisting; the detail-level state re-enters itself when a range is
stored and otherwise ends (its missing-range exit), also without
persisting.  (Cancelling in the non-line states requires the `/cancel`
command, which the framework routes to the fallback handler.) -/
theorem C4_amended (uid : ℕ) (cur : ℕ × ℕ) (toTs : ℤ → ℤ → ℕ)
    (ud : UserData) (t : Str) (h : is_cancel t = true) :
    bot_step uid cur toTs .incomeLine ud t = ⟨.endState, ud, []⟩
    ∧ bot_step uid cur toTs .expenseLine ud t
        = ⟨.endState, { ud with expenseCat := none }, []⟩
    ∧ bot_step uid cur toTs .expenseCategory ud t = ⟨.expenseCategory, ud, []⟩
    ∧ bot_step uid cur toTs .statsPeriod ud t = ⟨.statsPeriod, ud, []⟩
    ∧ bot_step uid cur toTs .statsCustomMonth ud t = ⟨.statsCustomMonth, ud, []⟩
    ∧ (ud.statsRange = none →
        bot_step uid cur toTs .statsDetailLevel ud t = ⟨.endState, ud, []⟩)
    ∧ (∀ r, ud.statsRange = some r →
        bot_step uid cur toTs .statsDetailLevel ud t = ⟨.statsDetailLevel, ud, []⟩) := by
  refine ⟨?_, ?_, ?_, ?_, ?_, ?_, ?_⟩
  · simp [bot_step, h]
  · simp [bot_step, h]
  · simp [bot_step, extract_category_cancel h]
  · have h1 : ¬ pyStrip t = ("Текущий месяц").data := cancel_strip_ne h (by decide)
    have h2 : ¬ pyStrip t = ("За всё время").data := cancel_strip_ne h (by decide)
    have h3 : ¬ pyStrip t = ("Выбрать месяц").data := cancel_strip_ne h (by decide)
    simp [bot_step, h1, h2, h3]
  · simp [bot_step, parse_month_cancel h]
  · intro hn
    simp [bot_step, hn]
  · intro r hr
    have h4 : ¬ pyStrip t = ("Общее").data := cancel_strip_ne h (by decide)
    have h5 : ¬ pyStrip t = ("Детально").data := cancel_strip_ne h (by decide)
    simp [bot_step, hr, h4, h5]

theorem C4_amended_witness :
    bot_step 1 (0, 0) (fun _ _ => 0) .expenseLine
        ⟨some (("Еда").data), none⟩ (("Отмена").data)
      = ⟨.endState, ⟨none, none⟩, []⟩ :=
  (C4_amended 1 (0, 0) (fun _ _ => 0) ⟨some (("Еда").data), none⟩
    (("Отмена").data) (by decide)).2.1

/-- C8: category extraction returns the first category in the fixed list
order whose label occurs as a substring of the input, and when no label
occurs the extraction fails and the category-selection state re-enters
itself with unchanged scratch data and nothing persisted. -/
theorem C8_category_extraction :
    (∀ t c, extract_category t = some c →
       ∃ pre post, EXPENSE_CATEGORIES = pre ++ c :: post ∧ c <:+: t
         ∧ ∀ d ∈ pre, ¬ d <:+: t)
    ∧ (∀ t, (∀ c ∈ EXPENSE_CATEGORIES, ¬ c <:+: t) →
       extract_category t = none
       ∧ ∀ uid cur toTs ud,
           bot_step uid cur toTs .expenseCategory ud t
             = ⟨.expenseCategory, ud, []⟩) := by
  have hprops : ∀ x ∈ EXPENSE_CATEGORIES, x ≠ [] ∧ ∀ ch ∈ x, wsChar ch = false := by
    decide
  constructor
  · intro t c h
    obtain ⟨pre, post, hl, hc, hpre⟩ := findCat_eq_some h
    have hcmem : c ∈ EXPENSE_CATEGORIES := by
      rw [hl]
      exact List.mem_append_right pre (List.mem_cons_self c post)
    have hcp := hprops c hcmem
    refine ⟨pre, post, hl, (infix_pyStrip_iff hcp.1 hcp.2 t).mp hc, ?_⟩
    intro d hd hdt
    have hdmem : d ∈ EXPENSE_CATEGORIES := by
      rw [hl]
      exact List.mem_append_left _ hd
    have hdp := hprops d hdmem
    exact hpre d hd ((infix_pyStrip_iff hdp.1 hdp.2 t).mpr hdt)
  · intro t hno
    have hnone : extract_category t = none := by
      apply findCat_eq_none
      intro c hc hinf
      exact hno c hc (hinf.trans (pyStrip_infix_self t))
    refine ⟨hnone, ?_⟩
    intro uid cur toTs ud
    simp [bot_step, hnone]

theorem C8_category_extraction_witness :
    (∃ pre post, EXPENSE_CATEGORIES = pre ++ ("Еда").data :: post
       ∧ ("Еда").data <:+: ("🍽️ Еда").data
       ∧ ∀ d ∈ pre, ¬ d <:+: ("🍽️ Еда").data)
    ∧ extract_category (("привет").data) = none := by
  refine ⟨C8_category_extraction.1 (("🍽️ Еда").data) (("Еда").data) (by decide),
    (C8_category_extraction.2 (("привет").data) (by decide)).1⟩

/-- C6: over the record multiset {income 1000 "salary", expense 200 "Еда"
"lunch", expense 50 "НЗ" "save"}, all on day D1 (timestamp 100), and any
range covering D1, the summary statistics give income total 1000, expense
total 250 (exactly two kinds), category totals Еда 200 and НЗ 50 (exactly
two categories), and the derived balance income − expense is 750; with
the expense records absent, the missing kind reads as 0 and the balance
equals 1000. -/
theorem C6_summary_stats (f t : Option ℕ) (h : inRange f t 100 = true) :
    getD (get_stats 1 f t c6db).1 (("income").data) = 1000
    ∧ getD (get_stats 1 f t c6db).1 (("expense").data) = 250
    ∧ (get_stats 1 f t c6db).1.length = 2
    ∧ getD (get_stats 1 f t c6db).2 (some (("Еда").data)) = 200
    ∧ getD (get_stats 1 f t c6db).2 (some (("НЗ").data)) = 50
    ∧ (get_stats 1 f t c6db).2.length = 2
    ∧ getD (get_stats 1 f t c6db).1 (("income").data)
        - getD (get_stats 1 f t c6db).1 (("expense").data) = 750
    ∧ getD (get_stats 1 f t c6single).1 (("expense").data) = 0
    ∧ getD (get_stats 1 f t c6single).1 (("income").data)
        - getD (get_stats 1 f t c6single).1 (("expense").data) = 1000 := by
  have hfil : c6db.filter (matchesQ 1 f t) = c6db := by
    simp [c6db, List.filter, matchesQ, h]
  have hfil1 : c6single.filter (matchesQ 1 f t) = c6single := by
    simp [c6single, List.filter, matchesQ, h]
  have hstats : get_stats 1 f t c6db
      = ([(("income").data, 1000), (("expense").data, 250)],
         [(some (("Еда").data), 200), (some (("НЗ").data), 50)]) := by
    unfold get_stats
    rw [hfil]
    simp [c6db, groupSum, dedupKeys]
    norm_num
  have hstats1 : get_stats 1 f t c6single = ([(("income").data, 1000)], []) := by
    unfold get_stats
    rw [hfil1]
    simp [c6single, groupSum, dedupKeys]
  rw [hstats, hstats1]
  simp [getD]
  norm_num

theorem C6_summary_stats_witness :
    getD (get_stats 1 (some 50) (some 200) c6db).1 (("income").data) = 1000
    ∧ getD (get_stats 1 (some 50) (some 200) c6db).1 (("expense").data) = 250
    ∧ getD (get_stats 1 (some 50) (some 200) c6db).1 (("income").data)
        - getD (get_stats 1 (some 50) (some 200) c6db).1 (("expense").data) = 750 := by
  have h := C6_summary_stats (some 50) (some 200) (by decide)
  exact ⟨h.1, h.2.1, h.2.2.2.2.2.2.1⟩

/-- C9: for every user and date range matching zero records, the
statistics query returns empty mappings — so the income, expense and
every category total read as 0 — the detailed-records query returns no
rows, and the detailed view renders the dedicated "no records in this
period" message. -/
theorem C9_empty_range (u : ℕ) (f t : Option ℕ) (db : List DBRecord)
    (label : Str) (dateFmt : ℕ → Str)
    (h : db.filter (matchesQ u f t) = []) :
    get_stats u f t db = ([], [])
    ∧ getD (get_stats u f t db).1 (("income").data) = 0
    ∧ getD (get_stats u f t db).1 (("expense").data) = 0
    ∧ (∀ c, getD (get_stats u f t db).2 c = 0)
    ∧ get_records u f t db = []
    ∧ send_detailed_stats dateFmt (get_records u f t db) label
        = ("За период «").data ++ label ++ ("» записей нет.").data := by
  have hs : get_stats u f t db = ([], []) := by
    unfold get_stats
    rw [h]
    rfl
  have hr : get_records u f t db = [] := by
    unfold get_records
    rw [h]
    rfl
  refine ⟨hs, ?_, ?_, ?_, hr, ?_⟩
  · rw [hs]; rfl
  · rw [hs]; rfl
  · intro c; rw [hs]; rfl
  · rw [hr]; rfl

theorem C9_empty_range_witness :
    get_stats 3 none none [] = ([], [])
    ∧ send_detailed_stats (fun _ => []) (get_records 3 none none [])
        (("За всё время").data)
      = ("За период «").data ++ ("За всё время").data ++ ("» записей нет.").data := by
  have h := C9_empty_range 3 none none [] (("За всё время").data) (fun _ => []) (by decide)
  exact ⟨h.1, h.2.2.2.2.2⟩

theorem send_stats_split_no_nz (cats : List (Option Str × ℚ)) :
    ∀ acc : ℚ × List (Option Str × ℚ),
      (some (("НЗ").data)) ∉ acc.2.map Prod.fst →
      (some (("НЗ").data)) ∉
        (cats.foldl
          (fun acc p =>
            if p.1 = some (("НЗ").data) then (p.2, acc.2) else (acc.1, acc.2 ++ [p]))
          acc).2.map Prod.fst := by
  induction cats with
  | nil => intro acc h; exact h
  | cons p rest ih =>
      intro acc h
      rw [List.foldl_cons]
      by_cases hp : p.1 = some (("НЗ").data)
      · rw [if_pos hp]
        exact ih _ h
      · rw [if_neg hp]
        refine ih _ ?_
        intro hmem
        rcases List.mem_map.mp hmem with ⟨q, hq, hq2⟩
        rcases List.mem_append.mp hq with hq' | hq'
        · exact h (List.mem_map.mpr ⟨q, hq', hq2⟩)
        · rcases List.mem_singleton.mp hq' with rfl
          exact hp hq2

/-- C7 (amended): the reserve category НЗ is never listed among the other
expense-category lines of either summary rendering; the dedicated reserve
section is always present in `bot.py`'s summary (its `Запас (НЗ)` line is
unconditional), and present in `GainSpend.py`'s summary exactly when the
НЗ total is truthy (non-zero) — with a zero НЗ total that revision emits
no reserve section at all. -/
theorem C7_reserve_separate :
    (∀ cats : List (Option Str × ℚ),
       (some (("НЗ").data)) ∉ (send_stats_split cats).2.map Prod.fst)
    ∧ (∀ sums cats label,
       (("Запас (НЗ): ").data ++ fmt2 (getD cats (some (("НЗ").data))) ++ (" ₽").data)
         ∈ send_summary_stats sums cats label)
    ∧ (∀ sums cats label, ¬ (send_stats_split cats).1 = 0 →
       (("НЗ (Запас):").data) ∈ send_stats_lines sums cats label) := by
  refine ⟨?_, ?_, ?_⟩
  · intro cats
    exact send_stats_split_no_nz cats (0, []) (by simp)
  · intro sums cats label
    simp [send_summary_stats]
  · intro sums cats label hnz
    simp [send_stats_lines, hnz]

theorem C7_reserve_separate_witness :
    (("НЗ (Запас):").data)
      ∈ send_stats_lines [] [(some (("НЗ").data), 50)] (("Месяц 11-25").data) := by
  refine C7_reserve_separate.2.2 [] [(some (("НЗ").data), 50)] (("Месяц 11-25").data) ?_
  decide

/-- C7 counterexample: a `GainSpend.py` summary report for a period with
income 1000 and a single Еда expense of 100 — НЗ total 0 — contains no
reserve section at all: the claimed always-present dedicated НЗ section
is missing, and no line of the report mentions НЗ. -/
theorem C7_counterexample :
    ¬ (("НЗ (Запас):").data)
        ∈ send_stats_lines [(("income").data, 1000)] [(some (("Еда").data), 100)]
            (("За всё время").data)
    ∧ (send_stats_lines [(("income").data, 1000)] [(some (("Еда").data), 100)]
        (("За всё время").data)).all
          (fun l => !(decide ((("НЗ").data) <:+: l))) = true := by
  have hl : send_stats_lines [(("income").data, 1000)] [(some (("Еда").data), 100)]
      (("За всё время").data)
      = [("📊 Статистика: За всё время").data, [],
         ("Доход: ").data ++ fmt2 1000 ++ (" ₽").data,
         ("Расход: ").data ++ fmt2 0 ++ (" ₽").data,
         ("Баланс: ").data ++ fmt2 1000 ++ (" ₽").data,
         [], ("Расходы по категориям:").data,
         catLine (some (("Еда").data), 100)] := by
    simp [send_stats_lines, send_stats_split, getD, pyOrZero]
  rw [hl]
  exact ⟨by decide, by decide⟩
